import Mathlib

/-!
Verification of the craps simulator (`craps.py`).

The program's only source of nondeterminism is `random.randint(1, 6)`,
called twice per `roll2`.  We model the random source as an explicit
stream `List (Nat × Nat)`: each element is the pair of die values
consumed by one call to `roll2`.  A function that needs a roll when the
stream is exhausted returns `none` (the real program's stream is
infinite, so `none` never corresponds to a program behaviour; every
theorem below is about runs where the stream suffices).

Console output is modelled as a list of abstract tokens (`Out`), one
per `print` call, so that the influence of the `verbose` flag can be
stated precisely.

Python exceptions that the claims mention are modelled by `CrapsError`:
`ZeroDivisionError` from `wins / numGames` with `numGames = 0`, and
`ValueError` from `int(args[2])` on a non-numeric string.
-/

/-- One print statement's worth of console output, abstracted. -/
inductive Out where
  | threw (t1 t2 s : Nat)
  | phase1ComeOut
  | targetEstablished (t : Nat)
  | phase2Point
  | naturalMsg
  | crapMsg
  | passMsg
  | sevenOutMsg
  deriving DecidableEq, Repr

/-- The stream of pending dice throws: one pair per `roll2` call. -/
abbrev Dice := List (Nat × Nat)

/-- Drop the printed output from a run result, keeping the returned
value and the remaining dice stream. -/
def resOf {α : Type} (r : Option (α × List Out × Dice)) : Option (α × Dice) :=
  r.map (fun x => (x.1, x.2.2))

/-- `roll2(verbose)`: consume two die throws, return their sum;
print the throw when verbose. -/
def roll2 (verbose : Bool) (ds : Dice) : Option (Nat × List Out × Dice) :=
  match ds with
  | [] => none
  | (throw1, throw2) :: rest =>
    let sum := throw1 + throw2
    some (sum, if verbose then [Out.threw throw1 throw2 sum] else [], rest)

/-- `comeOut(verbose)`: Phase I — one roll, returned as the target. -/
def comeOut (verbose : Bool) (ds : Dice) : Option (Nat × List Out × Dice) :=
  match roll2 verbose ds with
  | none => none
  | some (target, o, ds1) =>
    some (target,
      (if verbose then [Out.phase1ComeOut] else []) ++ o ++
        (if verbose then [Out.targetEstablished target] else []),
      ds1)

/-- The `while ((total != 7) and (total != target))` loop of `point`,
entered with the current `total`; structural recursion on the dice
stream replaces the source's unbounded loop. -/
def pointWhile (target : Nat) (verbose : Bool) : Nat → Dice → Option (Bool × List Out × Dice)
  | total, ds =>
    if total ≠ 7 ∧ total ≠ target then
      match ds with
      | [] => none
      | (t1, t2) :: rest =>
        let s := t1 + t2
        let o : List Out := if verbose then [Out.threw t1 t2 s] else []
        match pointWhile target verbose s rest with
        | none => none
        | some (w, o2, ds2) => some (w, o ++ o2, ds2)
    else
      some (decide (total = target), [], ds)

/-- `point(target, verbose)`: Phase II — roll until the total is 7 or
the target; win exactly when the final total equals the target. -/
def point (target : Nat) (verbose : Bool) (ds : Dice) : Option (Bool × List Out × Dice) :=
  match roll2 verbose ds with
  | none => none
  | some (total, o, ds1) =>
    match pointWhile target verbose total ds1 with
    | none => none
    | some (win, o2, ds2) =>
      some (win, (if verbose then [Out.phase2Point] else []) ++ o ++ o2, ds2)

/-- `playToReplay(verbose)`: one game; returns whether the player keeps
the dice (natural → false, craps → true, otherwise the point result). -/
def playToReplay (verbose : Bool) (ds : Dice) : Option (Bool × List Out × Dice) :=
  match comeOut verbose ds with
  | none => none
  | some (target, o, ds1) =>
    if target = 7 ∨ target = 11 then
      some (false, o ++ (if verbose then [Out.naturalMsg] else []), ds1)
    else if target = 2 ∨ target = 3 ∨ target = 12 then
      some (true, o ++ (if verbose then [Out.crapMsg] else []), ds1)
    else
      match point target verbose ds1 with
      | none => none
      | some (replay, o2, ds2) =>
        some (replay,
          o ++ o2 ++
            (if verbose then (if replay then [Out.passMsg] else [Out.sevenOutMsg]) else []),
          ds2)

/-- `playToWin(verbose)`: one game; returns whether the player won
(natural → true, craps → false, otherwise the point result). -/
def playToWin (verbose : Bool) (ds : Dice) : Option (Bool × List Out × Dice) :=
  match comeOut verbose ds with
  | none => none
  | some (target, o, ds1) =>
    if target = 7 ∨ target = 11 then
      some (true, o ++ (if verbose then [Out.naturalMsg] else []), ds1)
    else if target = 2 ∨ target = 3 ∨ target = 12 then
      some (false, o ++ (if verbose then [Out.crapMsg] else []), ds1)
    else
      match point target verbose ds1 with
      | none => none
      | some (win, o2, ds2) =>
        some (win,
          o ++ o2 ++
            (if verbose then (if win then [Out.passMsg] else [Out.sevenOutMsg]) else []),
          ds2)

/-- Python exceptions relevant to the claims. -/
inductive CrapsError where
  | zeroDivisionError
  | valueError
  deriving DecidableEq, Repr

/-- The loop body of `test()`: replay (verbose) until `playToReplay`
returns false.  `fuel` only bounds the recursion; `test` supplies
enough fuel that it runs out exactly when the dice stream does. -/
def testLoop : Nat → Dice → Option Dice
  | 0, _ => none
  | fuel + 1, ds =>
    match playToReplay true ds with
    | none => none
    | some (replay, _, ds1) => if replay then testLoop fuel ds1 else some ds1

/-- `test()`: play (verbose) until the player must yield the dice.
Only the consumed state is modelled; no claim concerns its narration. -/
def test (ds : Dice) : Option Dice :=
  testLoop (ds.length + 1) ds

/-- The `for game in range(numGames)` loop of `computeOdds`, with the
running `wins` accumulator. -/
def oddsLoop (wins : Nat) : Nat → Dice → Option (Nat × Dice)
  | 0, ds => some (wins, ds)
  | n + 1, ds =>
    match playToWin false ds with
    | none => none
    | some (w, _, ds1) => oddsLoop (if w = true then wins + 1 else wins) n ds1

/-- `computeOdds(numGames)`: run `playToWin(False)` `numGames` times,
count wins, and return `wins / numGames`.  `numGames` is an `Int`
because Python's `range` accepts (and empties) negative counts; the
division `wins / numGames` raises `ZeroDivisionError` when
`numGames = 0`.  The odds are exact rationals (Python uses floats). -/
def computeOdds (numGames : Int) (ds : Dice) : Option (Except CrapsError (Nat × ℚ × Dice)) :=
  match oddsLoop 0 numGames.toNat ds with
  | none => none
  | some (wins, ds1) =>
    if numGames = 0 then
      some (Except.error CrapsError.zeroDivisionError)
    else
      some (Except.ok (wins, (wins : ℚ) / (numGames : ℚ), ds1))

/-- Value of a nonempty all-decimal-digit character list, else `none`. -/
def digitsVal (cs : List Char) : Option Nat :=
  if cs ≠ [] ∧ cs.all Char.isDigit then
    some (cs.foldl (fun acc c => acc * 10 + (c.toNat - 48)) 0)
  else
    none

/-- Modelled Python built-in `int(str)`: strip ASCII whitespace, allow
one optional sign, then require at least one decimal digit.  `none`
models a raised `ValueError`. -/
def pyInt (s : String) : Option Int :=
  let ws : List Char := [' ', '\t', '\n', '\r']
  let cs := ((s.toList.dropWhile (· ∈ ws)).reverse.dropWhile (· ∈ ws)).reverse
  match cs with
  | '-' :: rest => (digitsVal rest).map (fun n => -(n : Int))
  | '+' :: rest => (digitsVal rest).map (fun n => (n : Int))
  | _ => (digitsVal cs).map (fun n => (n : Int))

/-- Observable result of one invocation of `main`. -/
inductive MainRes where
  | played (win : Bool)
  | tested
  | odds (numGames : Int) (wins : Nat) (oddsVal : ℚ)
  | noop
  deriving DecidableEq, Repr

/-- The `odds` branch of `main`: run `computeOdds numGames` and report. -/
def runOdds (numGames : Int) (ds : Dice) : Option (Except CrapsError MainRes) :=
  match computeOdds numGames ds with
  | none => none
  | some (Except.error e) => some (Except.error e)
  | some (Except.ok (wins, q, _)) => some (Except.ok (MainRes.odds numGames wins q))

/-- `main(args)`: dispatch on the command-line arguments.  `args`
includes the program name in position 0, as `sys.argv` does.  An
uncaught Python exception is an `Except.error`.  (Named `crapsMain`
because Lean reserves `main`.) -/
def crapsMain (args : List String) (ds : Dice) : Option (Except CrapsError MainRes) :=
  match args with
  | _ :: arg1 :: rest =>
    if arg1 = "test" then
      (test ds).map (fun _ => Except.ok MainRes.tested)
    else if arg1 = "odds" then
      match rest with
      | [] => runOdds 1000 ds
      | a :: _ =>
        match pyInt a with
        | none => some (Except.error CrapsError.valueError)
        | some n => runOdds n ds
    else
      some (Except.ok MainRes.noop)
  | _ =>
    (playToWin true ds).map (fun x => Except.ok (MainRes.played x.1))

/-- Output-free companion of `pointWhile`: the returned boolean and the
remaining dice stream, proved equal to `resOf` of the real loop below. -/
def pointWhileR (target : Nat) : Nat → Dice → Option (Bool × Dice)
  | total, ds =>
    if total ≠ 7 ∧ total ≠ target then
      match ds with
      | [] => none
      | (t1, t2) :: rest => pointWhileR target (t1 + t2) rest
    else
      some (decide (total = target), ds)

/-- The list of booleans produced by `n` successive `playToWin(False)`
calls on a threaded dice stream.  Stated from the claim about
`computeOdds` ("the number of the N playToWin calls that returned
true"), for comparison with `oddsLoop`. -/
def playToWinSeq : Nat → Dice → Option (List Bool × Dice)
  | 0, ds => some ([], ds)
  | n + 1, ds =>
    match playToWin false ds with
    | none => none
    | some (w, _, ds1) =>
      match playToWinSeq n ds1 with
      | none => none
      | some (bs, ds2) => some (w :: bs, ds2)

lemma pointWhile_resOf (target : Nat) (v : Bool) :
    ∀ (ds : Dice) (total : Nat),
      resOf (pointWhile target v total ds) = pointWhileR target total ds := by
  intro ds
  induction ds with
  | nil =>
    intro total
    by_cases h : total ≠ 7 ∧ total ≠ target <;>
      simp [pointWhile, pointWhileR, h, resOf]
  | cons q rest ih =>
    obtain ⟨t1, t2⟩ := q
    intro total
    rw [pointWhile, pointWhileR]
    by_cases h : total ≠ 7 ∧ total ≠ target
    · rw [if_pos h, if_pos h]
      dsimp only
      rw [← ih (t1 + t2)]
      cases hrec : pointWhile target v (t1 + t2) rest with
      | none => simp [resOf]
      | some x =>
        obtain ⟨w, o2, ds2⟩ := x
        simp [resOf]
    · rw [if_neg h, if_neg h]
      simp [resOf]

lemma point_resOf (target : Nat) (v : Bool) (ds : Dice) :
    resOf (point target v ds) =
      match ds with
      | [] => none
      | (t1, t2) :: rest => pointWhileR target (t1 + t2) rest := by
  cases ds with
  | nil => simp [point, roll2, resOf]
  | cons q rest =>
    obtain ⟨t1, t2⟩ := q
    dsimp only
    rw [← pointWhile_resOf target v rest (t1 + t2)]
    simp only [point, roll2]
    cases hrec : pointWhile target v (t1 + t2) rest with
    | none => simp [resOf]
    | some x =>
      obtain ⟨w, o2, ds2⟩ := x
      simp [resOf]

lemma playToWin_resOf (v : Bool) (t1 t2 : Nat) (rest : Dice) :
    resOf (playToWin v ((t1, t2) :: rest)) =
      (if t1 + t2 = 7 ∨ t1 + t2 = 11 then some (true, rest)
       else if t1 + t2 = 2 ∨ t1 + t2 = 3 ∨ t1 + t2 = 12 then some (false, rest)
       else resOf (point (t1 + t2) v rest)) := by
  simp only [playToWin, comeOut, roll2]
  by_cases h1 : t1 + t2 = 7 ∨ t1 + t2 = 11
  · simp [h1, resOf]
  · by_cases h2 : t1 + t2 = 2 ∨ t1 + t2 = 3 ∨ t1 + t2 = 12
    · simp [h1, h2, resOf]
    · simp only [h1, h2, if_false, reduceIte]
      cases hrec : point (t1 + t2) v rest with
      | none => simp [resOf]
      | some x =>
        obtain ⟨w, o2, ds2⟩ := x
        simp [resOf]

lemma playToReplay_resOf (v : Bool) (t1 t2 : Nat) (rest : Dice) :
    resOf (playToReplay v ((t1, t2) :: rest)) =
      (if t1 + t2 = 7 ∨ t1 + t2 = 11 then some (false, rest)
       else if t1 + t2 = 2 ∨ t1 + t2 = 3 ∨ t1 + t2 = 12 then some (true, rest)
       else resOf (point (t1 + t2) v rest)) := by
  simp only [playToReplay, comeOut, roll2]
  by_cases h1 : t1 + t2 = 7 ∨ t1 + t2 = 11
  · simp [h1, resOf]
  · by_cases h2 : t1 + t2 = 2 ∨ t1 + t2 = 3 ∨ t1 + t2 = 12
    · simp [h1, h2, resOf]
    · simp only [h1, h2, if_false, reduceIte]
      cases hrec : point (t1 + t2) v rest with
      | none => simp [resOf]
      | some x =>
        obtain ⟨w, o2, ds2⟩ := x
        simp [resOf]

lemma playToWin_nil (v : Bool) : resOf (playToWin v []) = none := by
  simp [playToWin, comeOut, roll2, resOf]

lemma playToReplay_nil (v : Bool) : resOf (playToReplay v []) = none := by
  simp [playToReplay, comeOut, roll2, resOf]

lemma pointWhileR_stop (target total : Nat) (ds : Dice)
    (h : total = 7 ∨ total = target) :
    pointWhileR target total ds = some (decide (total = target), ds) := by
  rw [pointWhileR.eq_def]
  dsimp only
  rw [if_neg]
  tauto

lemma pointWhileR_run (target : Nat) :
    ∀ (pre : Dice) (total : Nat), total ≠ 7 → total ≠ target →
      (∀ q ∈ pre, q.1 + q.2 ≠ 7 ∧ q.1 + q.2 ≠ target) →
      ∀ (p1 p2 : Nat) (post : Dice), (p1 + p2 = 7 ∨ p1 + p2 = target) →
      pointWhileR target total (pre ++ (p1, p2) :: post) =
        some (decide (p1 + p2 = target), post) := by
  intro pre
  induction pre with
  | nil =>
    intro total h7 ht _ p1 p2 post hp
    rw [List.nil_append, pointWhileR, if_pos ⟨h7, ht⟩]
    exact pointWhileR_stop target (p1 + p2) post hp
  | cons q pre2 ih =>
    intro total h7 ht hpre p1 p2 post hp
    obtain ⟨q1, q2⟩ := q
    rw [List.cons_append, pointWhileR, if_pos ⟨h7, ht⟩]
    have hq := hpre (q1, q2) (List.mem_cons_self _ _)
    exact ih (q1 + q2) hq.1 hq.2 (fun r hr => hpre r (List.mem_cons_of_mem _ hr)) p1 p2 post hp

lemma point_run (target : Nat) (v : Bool) (pre : Dice) (p1 p2 : Nat) (post : Dice)
    (hpre : ∀ q ∈ pre, q.1 + q.2 ≠ 7 ∧ q.1 + q.2 ≠ target)
    (hp : p1 + p2 = 7 ∨ p1 + p2 = target) :
    resOf (point target v (pre ++ (p1, p2) :: post)) =
      some (decide (p1 + p2 = target), post) := by
  cases pre with
  | nil =>
    rw [List.nil_append, point_resOf]
    exact pointWhileR_stop target (p1 + p2) post hp
  | cons q pre2 =>
    obtain ⟨q1, q2⟩ := q
    rw [List.cons_append, point_resOf]
    have hq := hpre (q1, q2) (List.mem_cons_self _ _)
    exact pointWhileR_run target pre2 (q1 + q2) hq.1 hq.2
      (fun r hr => hpre r (List.mem_cons_of_mem _ hr)) p1 p2 post hp

lemma pointWhileR_seven_true :
    ∀ (ds : Dice) (total : Nat) (w : Bool) (ds2 : Dice),
      pointWhileR 7 total ds = some (w, ds2) → w = true := by
  intro ds
  induction ds with
  | nil =>
    intro total w ds2 h
    rw [pointWhileR] at h
    by_cases h7 : total = 7
    · rw [if_neg (by tauto)] at h
      subst h7
      simp at h
      simp_all
    · rw [if_pos ⟨h7, h7⟩] at h
      simp at h
  | cons q rest ih =>
    intro total w ds2 h
    obtain ⟨q1, q2⟩ := q
    rw [pointWhileR] at h
    by_cases h7 : total = 7
    · rw [if_neg (by tauto)] at h
      subst h7
      simp at h
      simp_all
    · rw [if_pos ⟨h7, h7⟩] at h
      exact ih (q1 + q2) w ds2 h

lemma point_seven_true (v : Bool) (ds : Dice) (w : Bool) (o : List Out) (ds2 : Dice)
    (h : point 7 v ds = some (w, o, ds2)) : w = true := by
  have hres : resOf (point 7 v ds) = some (w, ds2) := by rw [h]; rfl
  rw [point_resOf] at hres
  cases ds with
  | nil => simp at hres
  | cons q rest =>
    obtain ⟨q1, q2⟩ := q
    exact pointWhileR_seven_true rest (q1 + q2) w ds2 hres

lemma oddsLoop_playToWinSeq :
    ∀ (n : Nat) (wins : Nat) (ds : Dice),
      oddsLoop wins n ds =
        (playToWinSeq n ds).map (fun x => (wins + x.1.count true, x.2)) := by
  intro n
  induction n with
  | zero => intro wins ds; simp [oddsLoop, playToWinSeq]
  | succ n ih =>
    intro wins ds
    rw [oddsLoop, playToWinSeq]
    cases hw : playToWin false ds with
    | none => simp
    | some x =>
      obtain ⟨w, o, ds1⟩ := x
      dsimp only
      rw [ih]
      cases hs : playToWinSeq n ds1 with
      | none => simp
      | some y =>
        obtain ⟨bs, ds2⟩ := y
        dsimp only
        cases w <;> simp [List.count_cons]
        omega

lemma playToWinSeq_length :
    ∀ (n : Nat) (ds : Dice) (bs : List Bool) (ds2 : Dice),
      playToWinSeq n ds = some (bs, ds2) → bs.length = n := by
  intro n
  induction n with
  | zero =>
    intro ds bs ds2 h
    rw [playToWinSeq] at h
    simp only [Option.some.injEq, Prod.mk.injEq] at h
    rw [← h.1]
    rfl
  | succ n ih =>
    intro ds bs ds2 h
    rw [playToWinSeq] at h
    split at h
    · simp at h
    · split at h
      · simp at h
      · rename_i hs
        simp only [Option.some.injEq, Prod.mk.injEq] at h
        rw [← h.1, List.length_cons, ih _ _ _ hs]

lemma computeOdds_run (n : Int) (hn : n ≠ 0) (ds : Dice) (bs : List Bool) (ds1 : Dice)
    (hrun : playToWinSeq n.toNat ds = some (bs, ds1)) :
    computeOdds n ds =
      some (Except.ok (bs.count true, ((bs.count true : ℚ) / (n : ℚ)), ds1)) := by
  simp only [computeOdds, oddsLoop_playToWinSeq, hrun, Option.map_some]
  simp [hn]

/-- C1: for every come-out roll and subsequent dice sequence,
`playToReplay` and `playToWin` agree as specified: on a crap come-out
sum (2, 3, 12) replay is true while win is false; on a natural (7, 11)
replay is false while win is true; on any other come-out sum both
return exactly the Point Resolver's boolean on the remaining rolls. -/
theorem playToReplay_playToWin_agreement (v : Bool) (t1 t2 : Nat) (rest : Dice) :
    ((t1 + t2 = 2 ∨ t1 + t2 = 3 ∨ t1 + t2 = 12) →
      resOf (playToReplay v ((t1, t2) :: rest)) = some (true, rest) ∧
      resOf (playToWin v ((t1, t2) :: rest)) = some (false, rest)) ∧
    ((t1 + t2 = 7 ∨ t1 + t2 = 11) →
      resOf (playToReplay v ((t1, t2) :: rest)) = some (false, rest) ∧
      resOf (playToWin v ((t1, t2) :: rest)) = some (true, rest)) ∧
    (t1 + t2 ≠ 2 → t1 + t2 ≠ 3 → t1 + t2 ≠ 12 → t1 + t2 ≠ 7 → t1 + t2 ≠ 11 →
      resOf (playToReplay v ((t1, t2) :: rest)) = resOf (point (t1 + t2) v rest) ∧
      resOf (playToWin v ((t1, t2) :: rest)) = resOf (point (t1 + t2) v rest)) := by
  refine ⟨?_, ?_, ?_⟩
  · intro h
    have h7 : ¬(t1 + t2 = 7 ∨ t1 + t2 = 11) := by omega
    rw [playToReplay_resOf, playToWin_resOf, if_neg h7, if_neg h7, if_pos h, if_pos h]
    exact ⟨rfl, rfl⟩
  · intro h
    rw [playToReplay_resOf, playToWin_resOf, if_pos h, if_pos h]
    exact ⟨rfl, rfl⟩
  · intro h2 h3 h12 h7 h11
    have hA : ¬(t1 + t2 = 7 ∨ t1 + t2 = 11) := by tauto
    have hB : ¬(t1 + t2 = 2 ∨ t1 + t2 = 3 ∨ t1 + t2 = 12) := by tauto
    rw [playToReplay_resOf, playToWin_resOf, if_neg hA, if_neg hA, if_neg hB, if_neg hB]
    exact ⟨rfl, rfl⟩

theorem playToReplay_playToWin_agreement_witness :
    (resOf (playToReplay false [(1, 1)]) = some (true, []) ∧
     resOf (playToWin false [(1, 1)]) = some (false, [])) ∧
    (resOf (playToReplay false [(3, 4)]) = some (false, []) ∧
     resOf (playToWin false [(3, 4)]) = some (true, [])) ∧
    (resOf (playToReplay false [(2, 2), (3, 4)]) = resOf (point 4 false [(3, 4)]) ∧
     resOf (playToWin false [(2, 2), (3, 4)]) = resOf (point 4 false [(3, 4)])) :=
  ⟨(playToReplay_playToWin_agreement false 1 1 []).1 (by decide),
   (playToReplay_playToWin_agreement false 3 4 []).2.1 (by decide),
   (playToReplay_playToWin_agreement false 2 2 [(3, 4)]).2.2
     (by decide) (by decide) (by decide) (by decide) (by decide)⟩

/-- C2: for every legal point target (4, 5, 6, 8, 9, 10), the Point
Resolver rolls past every sum that is neither 7 nor the target, stops
at the first sum that is 7 or the target, and wins exactly when that
sum equals the target (false when it is 7). -/
theorem point_first_stop_resolves (target : Nat)
    (htarget : target = 4 ∨ target = 5 ∨ target = 6 ∨
      target = 8 ∨ target = 9 ∨ target = 10)
    (v : Bool) (pre : Dice) (p1 p2 : Nat) (post : Dice)
    (hpre : ∀ q ∈ pre, q.1 + q.2 ≠ 7 ∧ q.1 + q.2 ≠ target)
    (hp : p1 + p2 = 7 ∨ p1 + p2 = target) :
    resOf (point target v (pre ++ (p1, p2) :: post)) =
      some (decide (p1 + p2 = target), post) ∧
    (p1 + p2 = target →
      resOf (point target v (pre ++ (p1, p2) :: post)) = some (true, post)) ∧
    (p1 + p2 = 7 →
      resOf (point target v (pre ++ (p1, p2) :: post)) = some (false, post)) := by
  have hmain := point_run target v pre p1 p2 post hpre hp
  refine ⟨hmain, ?_, ?_⟩
  · intro hw
    rw [hmain]
    simp [hw]
  · intro h7
    rw [hmain]
    have hne : ¬ (p1 + p2 = target) := by omega
    simp [hne]

theorem point_first_stop_resolves_witness :
    resOf (point 4 false [(2, 3), (2, 2)]) = some (true, []) :=
  (point_first_stop_resolves 4 (by tauto) false [(2, 3)] 2 2 []
    (by decide) (by decide)).2.1 (by decide)

/-- C3: a come-out sum of 7 or 11 is an immediate Natural-Win:
`playToWin` returns true and consumes no further rolls (the point
phase is not entered). -/
theorem playToWin_natural (v : Bool) (t1 t2 : Nat) (rest : Dice)
    (h : t1 + t2 = 7 ∨ t1 + t2 = 11) :
    resOf (playToWin v ((t1, t2) :: rest)) = some (true, rest) := by
  rw [playToWin_resOf, if_pos h]

theorem playToWin_natural_witness :
    resOf (playToWin false [(3, 4)]) = some (true, []) :=
  playToWin_natural false 3 4 [] (by decide)

/-- C4: a come-out sum of 2, 3, or 12 is an immediate Crap-Loss:
`playToWin` returns false and consumes no further rolls (the point
phase is not entered). -/
theorem playToWin_craps (v : Bool) (t1 t2 : Nat) (rest : Dice)
    (h : t1 + t2 = 2 ∨ t1 + t2 = 3 ∨ t1 + t2 = 12) :
    resOf (playToWin v ((t1, t2) :: rest)) = some (false, rest) := by
  have h7 : ¬(t1 + t2 = 7 ∨ t1 + t2 = 11) := by omega
  rw [playToWin_resOf, if_neg h7, if_pos h]

theorem playToWin_craps_witness :
    resOf (playToWin false [(1, 1)]) = some (false, []) :=
  playToWin_craps false 1 1 [] (by decide)

/-- C5: for every positive game count `n`, `computeOdds` counts
exactly the `playToWin` calls that returned true, the count is at most
`n`, and the returned odds are exactly `wins / n`. -/
theorem computeOdds_counts_wins (n : Int) (hn : 0 < n) (ds : Dice)
    (bs : List Bool) (ds1 : Dice)
    (hrun : playToWinSeq n.toNat ds = some (bs, ds1)) :
    computeOdds n ds =
      some (Except.ok (bs.count true, ((bs.count true : ℚ) / (n : ℚ)), ds1)) ∧
    bs.count true ≤ n.toNat := by
  refine ⟨computeOdds_run n (by omega) ds bs ds1 hrun, ?_⟩
  rw [← playToWinSeq_length n.toNat ds bs ds1 hrun]
  exact List.count_le_length _ _

theorem computeOdds_counts_wins_witness :
    0 < (1 : Int) ∧
    playToWinSeq (1 : Int).toNat [(3, 4)] = some ([true], []) ∧
    (computeOdds 1 [(3, 4)] =
      some (Except.ok (List.count true [true],
        ((List.count true [true] : ℚ) / ((1 : Int) : ℚ)), [])) ∧
     List.count true [true] ≤ (1 : Int).toNat) :=
  ⟨by decide, by decide,
   computeOdds_counts_wins 1 (by decide) [(3, 4)] [true] [] (by decide)⟩

/-- C6: at `numGames = 0` the source performs `wins / numGames` with no
prior validation, so the raw `ZeroDivisionError` propagates; there is
no explicit Degenerate-Input rejection.  This theorem evaluates the
code at the failing input, exhibiting the raw fault. -/
theorem computeOdds_zero_raises_division_fault (ds : Dice) :
    computeOdds 0 ds = some (Except.error CrapsError.zeroDivisionError) := rfl

/-- C7: a non-numeric game-count argument to `odds` makes `int(args[2])`
raise `ValueError`, and the source catches nothing, so the raw parse
exception propagates; no user-visible parse error is produced.  This
theorem evaluates the code at such inputs, exhibiting the raw fault. -/
theorem odds_nonnumeric_raises_value_fault (prog s : String) (ds : Dice)
    (h : pyInt s = none) :
    crapsMain [prog, "odds", s] ds = some (Except.error CrapsError.valueError) := by
  rw [crapsMain.eq_def]
  simp [h]

theorem odds_nonnumeric_raises_value_fault_witness :
    pyInt "abc" = none ∧
    crapsMain ["craps.py", "odds", "abc"] [] =
      some (Except.error CrapsError.valueError) :=
  ⟨by decide, odds_nonnumeric_raises_value_fault "craps.py" "abc" [] (by decide)⟩

/-- C8: `main` invoked as `odds` with no count runs the Odds Aggregator
with exactly 1000 games (the implemented default, not the docstring's
10,000). -/
theorem odds_default_is_1000 (prog : String) (ds : Dice) :
    crapsMain [prog, "odds"] ds =
      (computeOdds 1000 ds).map
        (fun r => r.map (fun x => MainRes.odds 1000 x.1 x.2.1)) := by
  have h1 : crapsMain [prog, "odds"] ds = runOdds 1000 ds := rfl
  rw [h1]
  simp only [runOdds]
  cases h : computeOdds 1000 ds with
  | none => rfl
  | some r =>
    cases r with
    | error e => rfl
    | ok x =>
      obtain ⟨wins, q, ds2⟩ := x
      rfl

/-- C9: the returned boolean and the dice consumed by `roll2`, `point`,
`playToWin`, and `playToReplay` are identical for `verbose = true` and
`verbose = false`; the flag influences only the printed output. -/
theorem verbose_noninterference (target : Nat) (ds : Dice) :
    resOf (roll2 true ds) = resOf (roll2 false ds) ∧
    resOf (point target true ds) = resOf (point target false ds) ∧
    resOf (playToWin true ds) = resOf (playToWin false ds) ∧
    resOf (playToReplay true ds) = resOf (playToReplay false ds) := by
  refine ⟨?_, ?_, ?_, ?_⟩
  · cases ds with
    | nil => rfl
    | cons q rest =>
      obtain ⟨t1, t2⟩ := q
      simp [roll2, resOf]
  · rw [point_resOf, point_resOf]
  · cases ds with
    | nil => rw [playToWin_nil, playToWin_nil]
    | cons q rest =>
      obtain ⟨t1, t2⟩ := q
      rw [playToWin_resOf, playToWin_resOf, point_resOf, point_resOf]
  · cases ds with
    | nil => rw [playToReplay_nil, playToReplay_nil]
    | cons q rest =>
      obtain ⟨t1, t2⟩ := q
      rw [playToReplay_resOf, playToReplay_resOf, point_resOf, point_resOf]

/-- C10: with the degenerate target 7 the loop's two exit conditions
coincide: `point 7` stops at the first roll summing to 7 and returns
true there, and no successful run of `point 7` can return false. -/
theorem point_degenerate_seven (v : Bool) (pre : Dice) (p1 p2 : Nat) (post : Dice)
    (hpre : ∀ q ∈ pre, q.1 + q.2 ≠ 7) (hp : p1 + p2 = 7) :
    resOf (point 7 v (pre ++ (p1, p2) :: post)) = some (true, post) ∧
    (∀ (ds : Dice) (w : Bool) (o : List Out) (ds2 : Dice),
      point 7 v ds = some (w, o, ds2) → w = true) := by
  constructor
  · have h := point_run 7 v pre p1 p2 post
      (fun q hq => ⟨hpre q hq, hpre q hq⟩) (Or.inl hp)
    rw [h]
    simp [hp]
  · intro ds w o ds2 h
    exact point_seven_true v ds w o ds2 h

theorem point_degenerate_seven_witness :
    resOf (point 7 false [(1, 2), (3, 4)]) = some (true, []) :=
  (point_degenerate_seven false [(1, 2)] 3 4 [] (by decide) (by decide)).1
